import Mathlib

/-!
Verification of the bootstrap layer of `go-micro`'s `cmd` package
(`cmd/cmd.go`): option-set construction (`newCmd`), the default flag
surface (`DefaultFlags`), the built-in factory registries, and the
pre-run resolution hook (`Before`) that publishes the process-wide
default broker, registry, selector, transport, server and client.

Go strings are embedded as `List Char`; `strings.Split` on a one-character
separator and `strings.Join` are embedded as `splitChar` / `joinChar`.
Go maps from string to factory functions are embedded as association
lists with unique keys, indexed by `goLookup`.  The factories themselves
live in other packages (`broker`, `registry`, `selector`, `transport`,
`server`, `client`) and are abstracted as function parameters.  The
`Before` hook is embedded as a pure state transformer on the record of
process-wide default slots that also emits a trace of the factory calls
and construction events it performs, so that ordering and
exactly-once properties can be stated.
-/

set_option autoImplicit false

namespace GoMicroCmd

/-- A Go string, embedded as its list of characters. -/
abbrev Str := List Char

/-- Embedding of Go `strings.Split(s, sep)` for a one-character
separator: splits `s` on every occurrence of `sep`, keeping empty
segments, and returns `[[]]` on the empty string. -/
def splitChar (sep : Char) : Str → List Str
  | [] => [[]]
  | c :: cs =>
    if c = sep then
      [] :: splitChar sep cs
    else
      match splitChar sep cs with
      | [] => [[c]]
      | p :: ps => (c :: p) :: ps

/-- Embedding of Go `strings.Join(parts, sep)` for a one-character
separator. -/
def joinChar (sep : Char) : List Str → Str
  | [] => []
  | [p] => p
  | p :: q :: ps => p ++ sep :: joinChar sep (q :: ps)

theorem splitChar_ne_nil (sep : Char) (l : Str) : splitChar sep l ≠ [] := by
  cases l with
  | nil => simp [splitChar]
  | cons c cs =>
    simp only [splitChar]
    split
    · simp
    · split
      · simp
      · simp

/-- `strings.Split` produces one more segment than there are separators. -/
theorem length_splitChar (sep : Char) (l : Str) :
    (splitChar sep l).length = l.count sep + 1 := by
  induction l with
  | nil => simp [splitChar]
  | cons c cs ih =>
    simp only [splitChar]
    by_cases h : c = sep
    · subst h
      simp [List.count_cons, ih]
    · simp only [if_neg h]
      cases hs : splitChar sep cs with
      | nil => exact absurd hs (splitChar_ne_nil sep cs)
      | cons p ps =>
        have := ih
        rw [hs] at this
        simp only [List.length_cons] at this ⊢
        have hc : cs.count sep = ps.length := by omega
        simp [List.count_cons, h, hc]

/-- Joining the split segments with the separator reproduces the
original string: no characters are trimmed, dropped or deduplicated. -/
theorem joinChar_splitChar (sep : Char) (l : Str) :
    joinChar sep (splitChar sep l) = l := by
  induction l with
  | nil => simp [splitChar, joinChar]
  | cons c cs ih =>
    simp only [splitChar]
    by_cases h : c = sep
    · subst h
      cases hs : splitChar c cs with
      | nil => exact absurd hs (splitChar_ne_nil c cs)
      | cons p ps =>
        rw [hs] at ih
        simp [joinChar, ih]
    · simp only [if_neg h]
      cases hs : splitChar sep cs with
      | nil => exact absurd hs (splitChar_ne_nil sep cs)
      | cons p ps =>
        rw [hs] at ih
        cases ps with
        | nil => simp_all [joinChar]
        | cons q qs => simp_all [joinChar]

/-- No segment produced by `strings.Split` contains the separator. -/
theorem not_mem_of_mem_splitChar (sep : Char) (l : Str) (p : Str)
    (hp : p ∈ splitChar sep l) : sep ∉ p := by
  induction l generalizing p with
  | nil => simp [splitChar] at hp; simp [hp]
  | cons c cs ih =>
    simp only [splitChar] at hp
    by_cases h : c = sep
    · rw [if_pos h] at hp
      rcases List.mem_cons.mp hp with h1 | h1
      · simp [h1]
      · exact ih p h1
    · rw [if_neg h] at hp
      cases hs : splitChar sep cs with
      | nil => exact absurd hs (splitChar_ne_nil sep cs)
      | cons q qs =>
        rw [hs] at hp
        rcases List.mem_cons.mp hp with h1 | h1
        · subst h1
          intro hmem
          rcases List.mem_cons.mp hmem with h2 | h2
          · exact h h2.symm
          · exact ih q (hs ▸ List.mem_cons_self q qs) h2
        · exact ih p (hs ▸ List.mem_cons.mpr (Or.inr h1))

/-- The first segment of the split is the longest separator-free
front of the string. -/
theorem head_splitChar (sep : Char) (l : Str) :
    (splitChar sep l).headD [] = l.takeWhile (fun c => c ≠ sep) := by
  induction l with
  | nil => simp [splitChar]
  | cons c cs ih =>
    simp only [splitChar]
    by_cases h : c = sep
    · subst h
      simp [List.takeWhile_cons]
    · simp only [if_neg h]
      cases hs : splitChar sep cs with
      | nil => exact absurd hs (splitChar_ne_nil sep cs)
      | cons p ps =>
        rw [hs] at ih
        simp only [List.headD_cons] at ih
        simp [List.takeWhile_cons, h, ih]

/-- Joining everything after the first segment is exactly the part of
the string after the first separator (empty when there is none). -/
theorem joinChar_tail_splitChar (sep : Char) (l : Str) :
    joinChar sep (splitChar sep l).tail = (l.dropWhile (fun c => c ≠ sep)).drop 1 := by
  induction l with
  | nil => simp [splitChar, joinChar]
  | cons c cs ih =>
    simp only [splitChar]
    by_cases h : c = sep
    · subst h
      rw [if_pos rfl, List.tail_cons, joinChar_splitChar]
      simp [List.dropWhile_cons]
    · simp only [if_neg h]
      cases hs : splitChar sep cs with
      | nil => exact absurd hs (splitChar_ne_nil sep cs)
      | cons p ps =>
        rw [hs] at ih
        simp only [List.tail_cons] at ih
        simp [List.dropWhile_cons, h, ih]

/-- Number of separator-free segments: the split has exactly one
segment iff the string has no separator at all. -/
theorem splitChar_eq_singleton_iff (sep : Char) (l : Str) :
    (splitChar sep l).tail = [] ↔ sep ∉ l := by
  have hlen := length_splitChar sep l
  cases hs : splitChar sep l with
  | nil => exact absurd hs (splitChar_ne_nil sep l)
  | cons p ps =>
    rw [hs] at hlen
    simp only [List.length_cons] at hlen
    constructor
    · intro h
      simp only [List.tail_cons] at h
      subst h
      simp only [List.length_nil] at hlen
      intro hmem
      have := List.count_pos_iff.mpr hmem
      omega
    · intro h
      have : l.count sep = 0 := List.count_eq_zero.mpr h
      simp only [List.tail_cons]
      rw [this] at hlen
      exact List.length_eq_zero.mp (by omega)

/-! ## Go map indexing and the metadata map

Go maps from string keys are embedded as association lists with unique
keys.  `goLookup` embeds the comma-ok map index `m[k]`, `mdUpdate`
embeds map assignment `m[k] = v`. -/

/-- Embedding of the Go map index `m[k]` (comma-ok form) on an
association list. -/
def goLookup {α : Type} (k : Str) : List (Str × α) → Option α
  | [] => none
  | (k', v) :: rest => if k' = k then some v else goLookup k rest

/-- Embedding of the Go map assignment `m[k] = v`: replaces the value
at `k` if present, otherwise appends the binding. -/
def mdUpdate (m : List (Str × Str)) (k v : Str) : List (Str × Str) :=
  match m with
  | [] => [(k, v)]
  | (k', v') :: rest => if k' = k then (k, v) :: rest else (k', v') :: mdUpdate rest k v

/-- The key extracted from one `server_metadata` token in `Before`:
`parts := strings.Split(d, "="); key = parts[0]` (the split is never
empty, see `splitChar_ne_nil`, so the `headD` default is never used). -/
def mdKey (t : Str) : Str :=
  (splitChar '=' t).headD []

/-- The value extracted from one `server_metadata` token in `Before`:
`val` stays the zero string unless `len(parts) > 1`, in which case
`val = strings.Join(parts[1:], "=")` (and `parts[1:]` is the tail). -/
def mdVal (t : Str) : Str :=
  let parts := splitChar '=' t
  if parts.length > 1 then joinChar '=' parts.tail else []

/-- The metadata-assembly loop of `Before`: fold the token list into a
map, later tokens overwriting earlier ones with the same key. -/
def buildMetadata (toks : List Str) : List (Str × Str) :=
  toks.foldl (fun m t => mdUpdate m (mdKey t) (mdVal t)) []

/-- Spec-side definition (refinement reference): "the key is the
substring before the first `=`". -/
def specMdKey (t : Str) : Str := t.takeWhile (fun c => c ≠ '=')

/-- Spec-side definition (refinement reference): "the value is
everything after the first `=`" (and the empty string when the token
has no `=`). -/
def specMdVal (t : Str) : Str := (t.dropWhile (fun c => c ≠ '=')).drop 1

theorem mdKey_eq_specMdKey (t : Str) : mdKey t = specMdKey t := by
  unfold mdKey specMdKey
  exact head_splitChar '=' t

theorem mdVal_eq_specMdVal (t : Str) : mdVal t = specMdVal t := by
  unfold mdVal specMdVal
  have htail := joinChar_tail_splitChar '=' t
  have hlen := length_splitChar '=' t
  by_cases h : (splitChar '=' t).length > 1
  · rw [if_pos h]
    exact htail
  · rw [if_neg h]
    have hcount : t.count '=' = 0 := by omega
    have hnil : (splitChar '=' t).tail = [] :=
      (splitChar_eq_singleton_iff '=' t).mpr (List.count_eq_zero.mp hcount)
    rw [hnil, joinChar] at htail
    exact htail

theorem mdVal_no_eq (t : Str) (h : '=' ∉ t) : mdVal t = [] := by
  rw [mdVal_eq_specMdVal]
  unfold specMdVal
  have hd : t.dropWhile (fun c => c ≠ '=') = [] := by
    rw [List.dropWhile_eq_nil_iff]
    intro x hx
    have hne : x ≠ '=' := fun hxe => h (hxe ▸ hx)
    simpa using hne
  rw [hd]
  rfl

theorem mdKey_no_eq (t : Str) (h : '=' ∉ t) : mdKey t = t := by
  rw [mdKey_eq_specMdKey]
  unfold specMdKey
  rw [List.takeWhile_eq_self_iff]
  intro x hx
  have hne : x ≠ '=' := fun hxe => h (hxe ▸ hx)
  simpa using hne

theorem goLookup_mdUpdate_self (m : List (Str × Str)) (k v : Str) :
    goLookup k (mdUpdate m k v) = some v := by
  induction m with
  | nil => simp [mdUpdate, goLookup]
  | cons p rest ih =>
    obtain ⟨k', v'⟩ := p
    simp only [mdUpdate]
    by_cases h : k' = k
    · rw [if_pos h]
      simp [goLookup]
    · rw [if_neg h]
      simp [goLookup, h, ih]

theorem goLookup_mdUpdate_ne (m : List (Str × Str)) (k v k₂ : Str) (h : k₂ ≠ k) :
    goLookup k₂ (mdUpdate m k v) = goLookup k₂ m := by
  induction m with
  | nil =>
    simp only [mdUpdate, goLookup]
    rw [if_neg (Ne.symm h)]
  | cons p rest ih =>
    obtain ⟨k', v'⟩ := p
    simp only [mdUpdate]
    by_cases hk : k' = k
    · rw [if_pos hk]
      subst hk
      simp only [goLookup]
      rw [if_neg (Ne.symm h), if_neg (Ne.symm h)]
    · rw [if_neg hk]
      simp only [goLookup]
      by_cases hk2 : k' = k₂
      · rw [if_pos hk2, if_pos hk2]
      · rw [if_neg hk2, if_neg hk2]
        exact ih

theorem buildMetadata_append_single (toks : List Str) (t : Str) :
    buildMetadata (toks ++ [t]) = mdUpdate (buildMetadata toks) (mdKey t) (mdVal t) := by
  unfold buildMetadata
  rw [List.foldl_append]
  rfl

/-! ## Data model

`Options` embeds the `Options` struct: identity strings plus the four
factory registries.  The component instance types (`B`roker,
`R`egistry, `S`elector, `T`ransport, server `Srv`, client `Cl`) are
abstract, as the concrete implementations live outside this package.
A broker/registry/transport factory takes the address list; a selector
factory is invoked with `selector.Registry(registry.DefaultRegistry)`,
so it is embedded as a function of the registry value it receives. -/

variable {B R S T Srv Cl : Type}

/-- The `Options` struct of the `cmd` package. -/
structure Options (B R S T : Type) where
  Name : Str
  Version : Str
  Description : Str
  Brokers : List (Str × (List Str → B))
  Registries : List (Str × (List Str → R))
  Selectors : List (Str × (R → S))
  Transports : List (Str × (List Str → T))

/-- The parsed flag values `Before` reads from its `cli.Context`. -/
structure Flags where
  server_name : Str
  server_version : Str
  server_id : Str
  server_address : Str
  server_advertise : Str
  server_metadata : List Str
  broker : Str
  broker_address : Str
  registry : Str
  registry_address : Str
  selector : Str
  transport : Str
  transport_address : Str

/-- The process-wide default slots written by `Before`
(`broker.DefaultBroker`, `registry.DefaultRegistry`,
`selector.DefaultSelector`, `transport.DefaultTransport`,
`server.DefaultServer`, `client.DefaultClient`). -/
structure Defaults (B R S T Srv Cl : Type) where
  broker : B
  registry : R
  selector : S
  transport : T
  server : Srv
  client : Cl

/-- The configuration passed to `server.NewServer`. -/
structure ServerCfg where
  name : Str
  version : Str
  id : Str
  address : Str
  advertise : Str
  metadata : List (Str × Str)
  deriving DecidableEq

/-- Observable events of one `Before` run, in execution order: factory
invocations (with the argument passed), metadata assembly, and the
unconditional server/client constructions. -/
inductive Event (R : Type) where
  | brokerCall (addrs : List Str)
  | registryCall (addrs : List Str)
  | selectorCall (reg : R)
  | transportCall (addrs : List Str)
  | metadataBuilt (m : List (Str × Str))
  | serverBuilt (cfg : ServerCfg)
  | clientBuilt
  deriving DecidableEq

/-- The position of an event's step in the fixed order of `Before`. -/
def Event.stage : Event R → Nat
  | .brokerCall _ => 0
  | .registryCall _ => 1
  | .selectorCall _ => 2
  | .transportCall _ => 3
  | .metadataBuilt _ => 4
  | .serverBuilt _ => 5
  | .clientBuilt => 6

/-- `true` exactly on broker-factory invocation events. -/
def Event.isBrokerCall : Event R → Bool
  | .brokerCall _ => true
  | _ => false

/-- `true` exactly on registry-factory invocation events. -/
def Event.isRegistryCall : Event R → Bool
  | .registryCall _ => true
  | _ => false

/-- `true` exactly on selector-factory invocation events. -/
def Event.isSelectorCall : Event R → Bool
  | .selectorCall _ => true
  | _ => false

/-- `true` exactly on transport-factory invocation events. -/
def Event.isTransportCall : Event R → Bool
  | .transportCall _ => true
  | _ => false

/-- What one `Before` run produces: the updated default slots, the
event trace, and the returned error (`Before` ends in `return nil`). -/
structure BeforeResult (B R S T Srv Cl : Type) where
  defaults : Defaults B R S T Srv Cl
  trace : List (Event R)
  error : Option Str

/-! ## The resolution steps of `Before`

Each step embeds one `if x, ok := registry[kind]; ok { ... }` block of
`cmd.Before`, threading the default slots and emitting its event. -/

/-- Broker resolution:
`if b, ok := c.opts.Brokers[ctx.String("broker")]; ok { broker.DefaultBroker = b(strings.Split(ctx.String("broker_address"), ",")) }`. -/
def stepBroker (o : Options B R S T) (f : Flags) (d : Defaults B R S T Srv Cl) :
    Defaults B R S T Srv Cl × List (Event R) :=
  match goLookup f.broker o.Brokers with
  | some b =>
    let addrs := splitChar ',' f.broker_address
    ({ d with broker := b addrs }, [Event.brokerCall addrs])
  | none => (d, [])

/-- Registry resolution:
`if r, ok := c.opts.Registries[ctx.String("registry")]; ok { registry.DefaultRegistry = r(strings.Split(ctx.String("registry_address"), ",")) }`. -/
def stepRegistry (o : Options B R S T) (f : Flags) (d : Defaults B R S T Srv Cl) :
    Defaults B R S T Srv Cl × List (Event R) :=
  match goLookup f.registry o.Registries with
  | some r =>
    let addrs := splitChar ',' f.registry_address
    ({ d with registry := r addrs }, [Event.registryCall addrs])
  | none => (d, [])

/-- Selector resolution:
`if s, ok := c.opts.Selectors[ctx.String("selector")]; ok { selector.DefaultSelector = s(selector.Registry(registry.DefaultRegistry)) }`;
the factory receives the current value of the default-registry slot. -/
def stepSelector (o : Options B R S T) (f : Flags) (d : Defaults B R S T Srv Cl) :
    Defaults B R S T Srv Cl × List (Event R) :=
  match goLookup f.selector o.Selectors with
  | some s =>
    ({ d with selector := s d.registry }, [Event.selectorCall d.registry])
  | none => (d, [])

/-- Transport resolution:
`if t, ok := c.opts.Transports[ctx.String("transport")]; ok { transport.DefaultTransport = t(strings.Split(ctx.String("transport_address"), ",")) }`. -/
def stepTransport (o : Options B R S T) (f : Flags) (d : Defaults B R S T Srv Cl) :
    Defaults B R S T Srv Cl × List (Event R) :=
  match goLookup f.transport o.Transports with
  | some t =>
    let addrs := splitChar ',' f.transport_address
    ({ d with transport := t addrs }, [Event.transportCall addrs])
  | none => (d, [])

/-- The configuration `Before` passes to `server.NewServer`:
`server.Name(...)`, `server.Version(...)`, `server.Id(...)`,
`server.Address(...)`, `server.Advertise(...)`, `server.Metadata(...)`. -/
def beforeCfg (f : Flags) : ServerCfg :=
  { name := f.server_name
    version := f.server_version
    id := f.server_id
    address := f.server_address
    advertise := f.server_advertise
    metadata := buildMetadata f.server_metadata }

/-- The `cmd.Before` hook: broker, registry, selector and transport
resolution in order, then metadata assembly, then the unconditional
`server.NewServer(...)` and `client.NewClient()` constructions, ending
in `return nil`.  (The glog flag forwarding at the top of `Before`
only mutates external logging state and is not part of the model.)
`newServer` and `newClient` abstract `server.NewServer` /
`client.NewClient` from their own packages. -/
def before (o : Options B R S T) (newServer : ServerCfg → Srv) (newClient : Cl)
    (f : Flags) (d : Defaults B R S T Srv Cl) : BeforeResult B R S T Srv Cl :=
  let p1 := stepBroker o f d
  let p2 := stepRegistry o f p1.1
  let p3 := stepSelector o f p2.1
  let p4 := stepTransport o f p3.1
  let cfg := beforeCfg f
  let d5 := { p4.1 with server := newServer cfg }
  let d6 := { d5 with client := newClient }
  { defaults := d6
    trace := p1.2 ++ p2.2 ++ p3.2 ++ p4.2 ++
      [Event.metadataBuilt cfg.metadata, Event.serverBuilt cfg, Event.clientBuilt]
    error := none }

/-! ## Built-in factory registries and `newCmd`

The built-in registries each hold exactly one entry whose factory is a
constructor from another package (`broker.NewBroker`,
`registry.NewRegistry`, `selector.NewSelector`,
`transport.NewTransport`); those constructors are abstracted as
parameters `hb`, `cr`, `rs`, `ht`. -/

/-- `DefaultBrokers = map[...]{"http": broker.NewBroker}`. -/
def DefaultBrokers (hb : List Str → B) : List (Str × (List Str → B)) :=
  [("http".data, hb)]

/-- `DefaultRegistries = map[...]{"consul": registry.NewRegistry}`. -/
def DefaultRegistries (cr : List Str → R) : List (Str × (List Str → R)) :=
  [("consul".data, cr)]

/-- `DefaultSelectors = map[...]{"random": selector.NewSelector}`. -/
def DefaultSelectors (rs : R → S) : List (Str × (R → S)) :=
  [("random".data, rs)]

/-- `DefaultTransports = map[...]{"http": transport.NewTransport}`. -/
def DefaultTransports (ht : List Str → T) : List (Str × (List Str → T)) :=
  [("http".data, ht)]

/-- An option function, as in `type Option func(o *Options)`:
a mutation of the option set. -/
abbrev OptionFn (B R S T : Type) := Options B R S T → Options B R S T

/-- The base option set `newCmd` starts from: zero-valued identity
strings and the four built-in factory registries. -/
def baseOptions (hb : List Str → B) (cr : List Str → R) (rs : R → S)
    (ht : List Str → T) : Options B R S T :=
  { Name := []
    Version := []
    Description := []
    Brokers := DefaultBrokers hb
    Registries := DefaultRegistries cr
    Selectors := DefaultSelectors rs
    Transports := DefaultTransports ht }

/-- The option-application loop of `newCmd`:
`for _, o := range opts { o(&options) }`. -/
def applyOptions (hb : List Str → B) (cr : List Str → R) (rs : R → S)
    (ht : List Str → T) (os : List (OptionFn B R S T)) : Options B R S T :=
  os.foldl (fun o fn => fn o) (baseOptions hb cr rs ht)

/-- The option set held by the command after `newCmd`: the applied
options, with the fallback description
`"a go-micro service"` when `Description` ended up empty. -/
def newCmdOptions (hb : List Str → B) (cr : List Str → R) (rs : R → S)
    (ht : List Str → T) (os : List (OptionFn B R S T)) : Options B R S T :=
  let options := applyOptions hb cr rs ht os
  if options.Description = [] then
    { options with Description := "a go-micro service".data }
  else options

/-- The `cmd` struct as observable after `newCmd`: its option set and
the display fields copied onto the `cli.App`. -/
structure CmdT (B R S T : Type) where
  opts : Options B R S T
  appName : Str
  appVersion : Str
  appUsage : Str
  hideVersion : Bool

/-- `newCmd`: build the option set, then the app shell with
`app.Name = opts.Name`, `app.Version = opts.Version`,
`app.Usage = opts.Description`, hiding the version display when
`Version` is empty. -/
def newCmd (hb : List Str → B) (cr : List Str → R) (rs : R → S)
    (ht : List Str → T) (os : List (OptionFn B R S T)) : CmdT B R S T :=
  let options := newCmdOptions hb cr rs ht os
  { opts := options
    appName := options.Name
    appVersion := options.Version
    appUsage := options.Description
    hideVersion := options.Version.isEmpty }

/-! ## The default flag surface -/

/-- One flag declaration of `DefaultFlags`: a `cli.StringFlag` (name,
environment variable, default value, usage), a `cli.StringSliceFlag`,
or a `cli.BoolFlag`. -/
inductive FlagDecl where
  | stringFlag (name envVar value usage : Str)
  | sliceFlag (name envVar usage : Str)
  | boolFlag (name usage : Str)
  deriving DecidableEq

/-- The name a flag is declared under. -/
def FlagDecl.fname : FlagDecl → Str
  | .stringFlag n _ _ _ => n
  | .sliceFlag n _ _ => n
  | .boolFlag n _ => n

/-- The declared default string value of a flag (the zero string for
string flags declared without `Value`, and for slice/bool flags). -/
def FlagDecl.defValue : FlagDecl → Str
  | .stringFlag _ _ v _ => v
  | .sliceFlag _ _ _ => []
  | .boolFlag _ _ => []

/-- The `DefaultFlags` declaration list, in source order. -/
def DefaultFlags : List FlagDecl :=
  [ .stringFlag "server_name".data "MICRO_SERVER_NAME".data []
      "Name of the server. go.micro.srv.example".data
  , .stringFlag "server_version".data "MICRO_SERVER_VERSION".data []
      "Version of the server. 1.1.0".data
  , .stringFlag "server_id".data "MICRO_SERVER_ID".data []
      "Id of the server. Auto-generated if not specified".data
  , .stringFlag "server_address".data "MICRO_SERVER_ADDRESS".data ":0".data
      "Bind address for the server. 127.0.0.1:8080".data
  , .stringFlag "server_advertise".data "MICRO_SERVER_ADVERTISE".data []
      "Used instead of the server_address when registering with discovery. 127.0.0.1:8080".data
  , .sliceFlag "server_metadata".data "MICRO_SERVER_METADATA".data
      "A list of key-value pairs defining metadata. version=1.0.0".data
  , .stringFlag "broker".data "MICRO_BROKER".data "http".data
      "Broker for pub/sub. http, nats, rabbitmq".data
  , .stringFlag "broker_address".data "MICRO_BROKER_ADDRESS".data []
      "Comma-separated list of broker addresses".data
  , .stringFlag "registry".data "MICRO_REGISTRY".data "consul".data
      "Registry for discovery. memory, consul, etcd, kubernetes".data
  , .stringFlag "registry_address".data "MICRO_REGISTRY_ADDRESS".data []
      "Comma-separated list of registry addresses".data
  , .stringFlag "selector".data "MICRO_SELECTOR".data "selector".data
      "Selector used to pick nodes for querying. random, roundrobin, blacklist".data
  , .stringFlag "transport".data "MICRO_TRANSPORT".data "http".data
      "Transport mechanism used; http, rabbitmq, nats".data
  , .stringFlag "transport_address".data "MICRO_TRANSPORT_ADDRESS".data []
      "Comma-separated list of transport addresses".data
  , .boolFlag "logtostderr".data
      "log to standard error instead of files".data
  , .boolFlag "alsologtostderr".data
      "log to standard error as well as files".data
  , .stringFlag "log_dir".data [] []
      "log files will be written to this directory instead of the default temporary directory".data
  , .stringFlag "stderrthreshold".data [] []
      "logs at or above this threshold go to stderr".data
  , .stringFlag "v".data [] [] "log level for V logs".data
  , .stringFlag "vmodule".data [] []
      "comma-separated list of pattern=N settings for file-filtered logging".data
  , .stringFlag "log_backtrace_at".data [] []
      "when logging hits line file:N, emit a stack trace".data
  ]

/-- The default value `ctx.String(n)` yields when the flag `n` was not
supplied on the command line: the `Value` of its declaration. -/
def defaultFlagValue (n : Str) : Str :=
  match DefaultFlags.find? (fun fd => fd.fname = n) with
  | some fd => fd.defValue
  | none => []

/-- The `Flags` record seen by `Before` when every flag is left at its
declared default (no command-line arguments, no environment
overrides). -/
def defaultFlags : Flags :=
  { server_name := defaultFlagValue "server_name".data
    server_version := defaultFlagValue "server_version".data
    server_id := defaultFlagValue "server_id".data
    server_address := defaultFlagValue "server_address".data
    server_advertise := defaultFlagValue "server_advertise".data
    server_metadata := []
    broker := defaultFlagValue "broker".data
    broker_address := defaultFlagValue "broker_address".data
    registry := defaultFlagValue "registry".data
    registry_address := defaultFlagValue "registry_address".data
    selector := defaultFlagValue "selector".data
    transport := defaultFlagValue "transport".data
    transport_address := defaultFlagValue "transport_address".data }

/-! ## Helper lemmas about the resolution steps -/

theorem stepBroker_some (o : Options B R S T) (f : Flags)
    (d : Defaults B R S T Srv Cl) (b : List Str → B)
    (h : goLookup f.broker o.Brokers = some b) :
    stepBroker o f d =
      ({ d with broker := b (splitChar ',' f.broker_address) },
       [Event.brokerCall (splitChar ',' f.broker_address)]) := by
  unfold stepBroker
  rw [h]

theorem stepBroker_none (o : Options B R S T) (f : Flags)
    (d : Defaults B R S T Srv Cl) (h : goLookup f.broker o.Brokers = none) :
    stepBroker o f d = (d, []) := by
  unfold stepBroker
  rw [h]

theorem stepRegistry_some (o : Options B R S T) (f : Flags)
    (d : Defaults B R S T Srv Cl) (r : List Str → R)
    (h : goLookup f.registry o.Registries = some r) :
    stepRegistry o f d =
      ({ d with registry := r (splitChar ',' f.registry_address) },
       [Event.registryCall (splitChar ',' f.registry_address)]) := by
  unfold stepRegistry
  rw [h]

theorem stepRegistry_none (o : Options B R S T) (f : Flags)
    (d : Defaults B R S T Srv Cl) (h : goLookup f.registry o.Registries = none) :
    stepRegistry o f d = (d, []) := by
  unfold stepRegistry
  rw [h]

theorem stepSelector_some (o : Options B R S T) (f : Flags)
    (d : Defaults B R S T Srv Cl) (s : R → S)
    (h : goLookup f.selector o.Selectors = some s) :
    stepSelector o f d =
      ({ d with selector := s d.registry }, [Event.selectorCall d.registry]) := by
  unfold stepSelector
  rw [h]

theorem stepSelector_none (o : Options B R S T) (f : Flags)
    (d : Defaults B R S T Srv Cl) (h : goLookup f.selector o.Selectors = none) :
    stepSelector o f d = (d, []) := by
  unfold stepSelector
  rw [h]

theorem stepTransport_some (o : Options B R S T) (f : Flags)
    (d : Defaults B R S T Srv Cl) (t : List Str → T)
    (h : goLookup f.transport o.Transports = some t) :
    stepTransport o f d =
      ({ d with transport := t (splitChar ',' f.transport_address) },
       [Event.transportCall (splitChar ',' f.transport_address)]) := by
  unfold stepTransport
  rw [h]

theorem stepTransport_none (o : Options B R S T) (f : Flags)
    (d : Defaults B R S T Srv Cl) (h : goLookup f.transport o.Transports = none) :
    stepTransport o f d = (d, []) := by
  unfold stepTransport
  rw [h]

theorem stepBroker_trace_mem (o : Options B R S T) (f : Flags)
    (d : Defaults B R S T Srv Cl) (e : Event R)
    (he : e ∈ (stepBroker o f d).2) :
    e = Event.brokerCall (splitChar ',' f.broker_address) := by
  cases h : goLookup f.broker o.Brokers with
  | none => rw [stepBroker_none o f d h] at he; simp at he
  | some b => rw [stepBroker_some o f d b h] at he; simpa using he

theorem stepRegistry_trace_mem (o : Options B R S T) (f : Flags)
    (d : Defaults B R S T Srv Cl) (e : Event R)
    (he : e ∈ (stepRegistry o f d).2) :
    e = Event.registryCall (splitChar ',' f.registry_address) := by
  cases h : goLookup f.registry o.Registries with
  | none => rw [stepRegistry_none o f d h] at he; simp at he
  | some r => rw [stepRegistry_some o f d r h] at he; simpa using he

theorem stepSelector_trace_mem (o : Options B R S T) (f : Flags)
    (d : Defaults B R S T Srv Cl) (e : Event R)
    (he : e ∈ (stepSelector o f d).2) :
    e = Event.selectorCall d.registry := by
  cases h : goLookup f.selector o.Selectors with
  | none => rw [stepSelector_none o f d h] at he; simp at he
  | some s => rw [stepSelector_some o f d s h] at he; simpa using he

theorem stepTransport_trace_mem (o : Options B R S T) (f : Flags)
    (d : Defaults B R S T Srv Cl) (e : Event R)
    (he : e ∈ (stepTransport o f d).2) :
    e = Event.transportCall (splitChar ',' f.transport_address) := by
  cases h : goLookup f.transport o.Transports with
  | none => rw [stepTransport_none o f d h] at he; simp at he
  | some t => rw [stepTransport_some o f d t h] at he; simpa using he

/-- The trace of `before`, decomposed into the traces of its steps. -/
theorem before_trace (o : Options B R S T) (ns : ServerCfg → Srv) (nc : Cl)
    (f : Flags) (d : Defaults B R S T Srv Cl) :
    (before o ns nc f d).trace =
      (stepBroker o f d).2 ++
      (stepRegistry o f (stepBroker o f d).1).2 ++
      (stepSelector o f (stepRegistry o f (stepBroker o f d).1).1).2 ++
      (stepTransport o f (stepSelector o f (stepRegistry o f (stepBroker o f d).1).1).1).2 ++
      [Event.metadataBuilt (buildMetadata f.server_metadata),
       Event.serverBuilt (beforeCfg f), Event.clientBuilt] := by
  simp [before, beforeCfg, List.append_assoc]

/-- Every event of a `before` trace is one of the seven step events. -/
theorem before_trace_mem (o : Options B R S T) (ns : ServerCfg → Srv) (nc : Cl)
    (f : Flags) (d : Defaults B R S T Srv Cl) (e : Event R)
    (he : e ∈ (before o ns nc f d).trace) :
    e = Event.brokerCall (splitChar ',' f.broker_address) ∨
    e = Event.registryCall (splitChar ',' f.registry_address) ∨
    e = Event.selectorCall ((stepRegistry o f (stepBroker o f d).1).1.registry) ∨
    e = Event.transportCall (splitChar ',' f.transport_address) ∨
    e = Event.metadataBuilt (buildMetadata f.server_metadata) ∨
    e = Event.serverBuilt (beforeCfg f) ∨
    e = Event.clientBuilt := by
  rw [before_trace] at he
  rcases List.mem_append.mp he with he | he
  · rcases List.mem_append.mp he with he | h
    · rcases List.mem_append.mp he with he | h
      · rcases List.mem_append.mp he with h | h
        · exact Or.inl (stepBroker_trace_mem o f d e h)
        · exact Or.inr (Or.inl (stepRegistry_trace_mem o f _ e h))
      · exact Or.inr (Or.inr (Or.inl (stepSelector_trace_mem o f _ e h)))
    · exact Or.inr (Or.inr (Or.inr (Or.inl (stepTransport_trace_mem o f _ e h))))
  · simp only [List.mem_cons, List.mem_singleton, List.not_mem_nil, or_false] at he
    rcases he with h | h | h
    · exact Or.inr (Or.inr (Or.inr (Or.inr (Or.inl h))))
    · exact Or.inr (Or.inr (Or.inr (Or.inr (Or.inr (Or.inl h)))))
    · exact Or.inr (Or.inr (Or.inr (Or.inr (Or.inr (Or.inr h)))))

theorem before_defaults_broker (o : Options B R S T) (ns : ServerCfg → Srv) (nc : Cl)
    (f : Flags) (d : Defaults B R S T Srv Cl) :
    (before o ns nc f d).defaults.broker =
      (stepBroker o f d).1.broker := by
  have h1 : (before o ns nc f d).defaults.broker
      = (stepTransport o f (stepSelector o f (stepRegistry o f
          (stepBroker o f d).1).1).1).1.broker := rfl
  rw [h1]
  unfold stepTransport
  split <;> (unfold stepSelector ; split <;> (unfold stepRegistry ; split <;> rfl))

theorem before_defaults_registry (o : Options B R S T) (ns : ServerCfg → Srv) (nc : Cl)
    (f : Flags) (d : Defaults B R S T Srv Cl) :
    (before o ns nc f d).defaults.registry =
      (stepRegistry o f (stepBroker o f d).1).1.registry := by
  have h1 : (before o ns nc f d).defaults.registry
      = (stepTransport o f (stepSelector o f (stepRegistry o f
          (stepBroker o f d).1).1).1).1.registry := rfl
  rw [h1]
  unfold stepTransport
  split <;> (unfold stepSelector ; split <;> rfl)

theorem before_defaults_selector (o : Options B R S T) (ns : ServerCfg → Srv) (nc : Cl)
    (f : Flags) (d : Defaults B R S T Srv Cl) :
    (before o ns nc f d).defaults.selector =
      (stepSelector o f (stepRegistry o f
        (stepBroker o f d).1).1).1.selector := by
  have h1 : (before o ns nc f d).defaults.selector
      = (stepTransport o f (stepSelector o f (stepRegistry o f
          (stepBroker o f d).1).1).1).1.selector := rfl
  rw [h1]
  unfold stepTransport
  split <;> rfl

theorem before_defaults_transport (o : Options B R S T) (ns : ServerCfg → Srv) (nc : Cl)
    (f : Flags) (d : Defaults B R S T Srv Cl) :
    (before o ns nc f d).defaults.transport =
      (stepTransport o f (stepSelector o f (stepRegistry o f
        (stepBroker o f d).1).1).1).1.transport := rfl

theorem stepBroker_fst_registry (o : Options B R S T) (f : Flags)
    (d : Defaults B R S T Srv Cl) :
    (stepBroker o f d).1.registry = d.registry := by
  unfold stepBroker
  split <;> rfl

theorem stepBroker_fst_selector (o : Options B R S T) (f : Flags)
    (d : Defaults B R S T Srv Cl) :
    (stepBroker o f d).1.selector = d.selector := by
  unfold stepBroker
  split <;> rfl

theorem stepBroker_fst_transport (o : Options B R S T) (f : Flags)
    (d : Defaults B R S T Srv Cl) :
    (stepBroker o f d).1.transport = d.transport := by
  unfold stepBroker
  split <;> rfl

theorem stepRegistry_fst_selector (o : Options B R S T) (f : Flags)
    (d : Defaults B R S T Srv Cl) :
    (stepRegistry o f d).1.selector = d.selector := by
  unfold stepRegistry
  split <;> rfl

theorem stepRegistry_fst_transport (o : Options B R S T) (f : Flags)
    (d : Defaults B R S T Srv Cl) :
    (stepRegistry o f d).1.transport = d.transport := by
  unfold stepRegistry
  split <;> rfl

theorem stepSelector_fst_transport (o : Options B R S T) (f : Flags)
    (d : Defaults B R S T Srv Cl) :
    (stepSelector o f d).1.transport = d.transport := by
  unfold stepSelector
  split <;> rfl

theorem filter_brokerCall_stepRegistry (o : Options B R S T) (f : Flags)
    (d : Defaults B R S T Srv Cl) :
    (stepRegistry o f d).2.filter (Event.isBrokerCall (R := R)) = [] := by
  unfold stepRegistry
  split <;> rfl

theorem filter_brokerCall_stepSelector (o : Options B R S T) (f : Flags)
    (d : Defaults B R S T Srv Cl) :
    (stepSelector o f d).2.filter (Event.isBrokerCall (R := R)) = [] := by
  unfold stepSelector
  split <;> rfl

theorem filter_brokerCall_stepTransport (o : Options B R S T) (f : Flags)
    (d : Defaults B R S T Srv Cl) :
    (stepTransport o f d).2.filter (Event.isBrokerCall (R := R)) = [] := by
  unfold stepTransport
  split <;> rfl

theorem filter_registryCall_stepBroker (o : Options B R S T) (f : Flags)
    (d : Defaults B R S T Srv Cl) :
    (stepBroker o f d).2.filter (Event.isRegistryCall (R := R)) = [] := by
  unfold stepBroker
  split <;> rfl

theorem filter_registryCall_stepSelector (o : Options B R S T) (f : Flags)
    (d : Defaults B R S T Srv Cl) :
    (stepSelector o f d).2.filter (Event.isRegistryCall (R := R)) = [] := by
  unfold stepSelector
  split <;> rfl

theorem filter_registryCall_stepTransport (o : Options B R S T) (f : Flags)
    (d : Defaults B R S T Srv Cl) :
    (stepTransport o f d).2.filter (Event.isRegistryCall (R := R)) = [] := by
  unfold stepTransport
  split <;> rfl

theorem filter_selectorCall_stepBroker (o : Options B R S T) (f : Flags)
    (d : Defaults B R S T Srv Cl) :
    (stepBroker o f d).2.filter (Event.isSelectorCall (R := R)) = [] := by
  unfold stepBroker
  split <;> rfl

theorem filter_selectorCall_stepRegistry (o : Options B R S T) (f : Flags)
    (d : Defaults B R S T Srv Cl) :
    (stepRegistry o f d).2.filter (Event.isSelectorCall (R := R)) = [] := by
  unfold stepRegistry
  split <;> rfl

theorem filter_selectorCall_stepTransport (o : Options B R S T) (f : Flags)
    (d : Defaults B R S T Srv Cl) :
    (stepTransport o f d).2.filter (Event.isSelectorCall (R := R)) = [] := by
  unfold stepTransport
  split <;> rfl

theorem filter_transportCall_stepBroker (o : Options B R S T) (f : Flags)
    (d : Defaults B R S T Srv Cl) :
    (stepBroker o f d).2.filter (Event.isTransportCall (R := R)) = [] := by
  unfold stepBroker
  split <;> rfl

theorem filter_transportCall_stepRegistry (o : Options B R S T) (f : Flags)
    (d : Defaults B R S T Srv Cl) :
    (stepRegistry o f d).2.filter (Event.isTransportCall (R := R)) = [] := by
  unfold stepRegistry
  split <;> rfl

theorem filter_transportCall_stepSelector (o : Options B R S T) (f : Flags)
    (d : Defaults B R S T Srv Cl) :
    (stepSelector o f d).2.filter (Event.isTransportCall (R := R)) = [] := by
  unfold stepSelector
  split <;> rfl

/-! ## Concrete fixtures used to exercise the theorems

All component types are instantiated at `Nat`; the factories are
chosen so that every published slot value identifies which factory ran
and with which argument. -/

def natOptions : Options Nat Nat Nat Nat :=
  baseOptions (fun a => a.length) (fun a => 10 + a.length)
    (fun r => 100 + r) (fun a => 1000 + a.length)

def natDefaults : Defaults Nat Nat Nat Nat Nat Nat :=
  { broker := 0, registry := 0, selector := 0, transport := 0, server := 0, client := 0 }

def natNewServer : ServerCfg → Nat := fun cfg => 2000 + cfg.metadata.length

def natNewClient : Nat := 7

/-- Flags choosing the built-in kind of every registry. -/
def flagsAllMatch : Flags :=
  { defaultFlags with
      broker := "http".data
      broker_address := "x,y".data
      registry := "consul".data
      selector := "random".data
      transport := "http".data
      transport_address := "a".data
      server_metadata := ["k=v".data] }

/-- Flags requesting unknown kinds for all four components. -/
def flagsNoMatch : Flags :=
  { defaultFlags with
      broker := "nope".data
      registry := "nope".data
      selector := "nope".data
      transport := "nope".data }

/-- Flags with an unknown registry kind but the built-in selector kind. -/
def flagsSelOnly : Flags :=
  { defaultFlags with
      registry := "nope".data
      selector := "random".data }

/-! ## The claims -/

/-- C5: The metadata map built from the `server_metadata` token list
satisfies: for every token, the key is the substring before the first
`=` and the value is everything after the first `=` (rejoined with `=`
if the token contains several `=`); a token with no `=` maps its whole
text to the empty-string value; when two tokens share a key, the later
token's value wins. -/
theorem metadata_map_semantics :
    (∀ t : Str, mdKey t = specMdKey t ∧ mdVal t = specMdVal t) ∧
    (∀ t : Str, '=' ∉ t → mdKey t = t ∧ mdVal t = []) ∧
    (∀ (toks : List Str) (t : Str),
      goLookup (mdKey t) (buildMetadata (toks ++ [t])) = some (mdVal t) ∧
      (∀ k : Str, k ≠ mdKey t →
        goLookup k (buildMetadata (toks ++ [t])) = goLookup k (buildMetadata toks))) := by
  refine ⟨fun t => ⟨mdKey_eq_specMdKey t, mdVal_eq_specMdVal t⟩,
    fun t h => ⟨mdKey_no_eq t h, mdVal_no_eq t h⟩,
    fun toks t => ⟨?_, fun k hk => ?_⟩⟩
  · rw [buildMetadata_append_single]
    exact goLookup_mdUpdate_self _ _ _
  · rw [buildMetadata_append_single]
    exact goLookup_mdUpdate_ne _ _ _ _ hk

/-- Witness for C5 at concrete tokens: a bare token maps to the empty
value, a duplicated key is overwritten by the later token, and a
lookup of an unrelated key is unaffected by a new token. -/
theorem metadata_map_semantics_witness :
    (mdKey "env".data = "env".data ∧ mdVal "env".data = []) ∧
    goLookup (mdKey "k=2".data) (buildMetadata (["k=1".data] ++ ["k=2".data])) =
      some (mdVal "k=2".data) ∧
    goLookup "a".data (buildMetadata (["a=1".data] ++ ["b=2".data])) =
      goLookup "a".data (buildMetadata ["a=1".data]) :=
  ⟨metadata_map_semantics.2.1 "env".data (by decide),
   (metadata_map_semantics.2.2 ["k=1".data] "k=2".data).1,
   (metadata_map_semantics.2.2 ["a=1".data] "b=2".data).2 "a".data (by decide)⟩

/-- C6: For every comma-separated address flag value, the address list
passed to a factory is the string split on `,` with no trimming,
deduplication, or validation: its length equals the number of commas
plus one, empty segments pass through, and rejoining the segments with
`,` reproduces the flag value. -/
theorem address_split_semantics (B R S T Srv Cl : Type) :
    (∀ (o : Options B R S T) (ns : ServerCfg → Srv) (nc : Cl) (f : Flags)
        (d : Defaults B R S T Srv Cl) (a : List Str),
      (Event.brokerCall (R := R) a ∈ (before o ns nc f d).trace →
        a = splitChar ',' f.broker_address) ∧
      (Event.registryCall (R := R) a ∈ (before o ns nc f d).trace →
        a = splitChar ',' f.registry_address) ∧
      (Event.transportCall (R := R) a ∈ (before o ns nc f d).trace →
        a = splitChar ',' f.transport_address)) ∧
    (∀ s : Str,
      (splitChar ',' s).length = s.count ',' + 1 ∧
      joinChar ',' (splitChar ',' s) = s ∧
      ∀ p, p ∈ splitChar ',' s → ',' ∉ p) := by
  constructor
  · intro o ns nc f d a
    refine ⟨?_, ?_, ?_⟩ <;> intro hmem <;>
      rcases before_trace_mem o ns nc f d _ hmem with h | h | h | h | h | h | h <;>
      simpa using h
  · intro s
    exact ⟨length_splitChar ',' s, joinChar_splitChar ',' s,
      fun p hp => not_mem_of_mem_splitChar ',' s p hp⟩

/-- Witness for C6: the broker factory argument for
`--broker_address=x,y` is the two-element split, and on `a,,b` the
split has (number of commas + 1) segments, joins back, and the empty
middle segment carries no comma. -/
theorem address_split_semantics_witness :
    (["x".data, "y".data] : List Str) = splitChar ',' flagsAllMatch.broker_address ∧
    (splitChar ',' "a,,b".data).length = ("a,,b".data).count ',' + 1 ∧
    joinChar ',' (splitChar ',' "a,,b".data) = "a,,b".data ∧
    ',' ∉ ([] : Str) :=
  ⟨((address_split_semantics Nat Nat Nat Nat Nat Nat).1 natOptions natNewServer
      natNewClient flagsAllMatch natDefaults ["x".data, "y".data]).1 (by decide),
   ((address_split_semantics Nat Nat Nat Nat Nat Nat).2 "a,,b".data).1,
   ((address_split_semantics Nat Nat Nat Nat Nat Nat).2 "a,,b".data).2.1,
   ((address_split_semantics Nat Nat Nat Nat Nat Nat).2 "a,,b".data).2.2 [] (by decide)⟩

/-- C4: On every run of the pre-run hook (which returns `nil`), a
default server is constructed from the parsed name, version, id, bind
address, advertise address and assembled metadata, and a default
client is constructed, regardless of the four kind resolutions. -/
theorem before_always_server_client (o : Options B R S T) (ns : ServerCfg → Srv)
    (nc : Cl) (f : Flags) (d : Defaults B R S T Srv Cl) :
    (before o ns nc f d).defaults.server = ns (beforeCfg f) ∧
    (before o ns nc f d).defaults.client = nc ∧
    beforeCfg f = { name := f.server_name,
                    version := f.server_version,
                    id := f.server_id,
                    address := f.server_address,
                    advertise := f.server_advertise,
                    metadata := buildMetadata f.server_metadata } ∧
    Event.serverBuilt (beforeCfg f) ∈ (before o ns nc f d).trace ∧
    Event.clientBuilt ∈ (before o ns nc f d).trace ∧
    Event.metadataBuilt (buildMetadata f.server_metadata) ∈ (before o ns nc f d).trace ∧
    (before o ns nc f d).error = none := by
  refine ⟨rfl, rfl, rfl, ?_, ?_, ?_, rfl⟩ <;> rw [before_trace] <;> simp

/-- C1: The resolution steps of the pre-run hook execute in the fixed
order broker, registry, selector, transport, metadata assembly,
server, client (the trace is strictly sorted by step stage, so in
particular selector resolution never precedes registry resolution,
for any flag values), and the selector factory receives the default
registry exactly as it stands after the registry-resolution step. -/
theorem before_step_order (o : Options B R S T) (ns : ServerCfg → Srv) (nc : Cl)
    (f : Flags) (d : Defaults B R S T Srv Cl) :
    List.Pairwise (fun a b => a.stage < b.stage) (before o ns nc f d).trace ∧
    ∀ r, Event.selectorCall r ∈ (before o ns nc f d).trace →
      r = (stepRegistry o f (stepBroker o f d).1).1.registry := by
  constructor
  · rw [before_trace]
    rcases hb : goLookup f.broker o.Brokers with _ | b <;>
    rcases hr : goLookup f.registry o.Registries with _ | r <;>
    rcases hsel : goLookup f.selector o.Selectors with _ | s <;>
    rcases ht : goLookup f.transport o.Transports with _ | t <;>
      simp [stepBroker_none, stepBroker_some, stepRegistry_none, stepRegistry_some,
        stepSelector_none, stepSelector_some, stepTransport_none, stepTransport_some,
        hb, hr, hsel, ht, Event.stage]
  · intro r hmem
    rcases before_trace_mem o ns nc f d _ hmem with h | h | h | h | h | h | h <;>
      simpa using h

/-- Witness for C1: with all four built-in kinds selected, the
selector-call event's payload is the registry slot as published by the
preceding registry-resolution step. -/
theorem before_step_order_witness :
    Event.selectorCall 11 ∈
      (before natOptions natNewServer natNewClient flagsAllMatch natDefaults).trace ∧
    (11 : Nat) =
      (stepRegistry natOptions flagsAllMatch
        (stepBroker natOptions flagsAllMatch natDefaults).1).1.registry :=
  ⟨by decide,
   (before_step_order natOptions natNewServer natNewClient flagsAllMatch
      natDefaults).2 11 (by decide)⟩

/-- C2: For every kind identifier that is not a key of the
corresponding factory registry, the pre-run hook completes without
publishing a default for that kind (the slot keeps its prior value and
no factory-call event for that kind occurs), raises no error, and
returns success for all flag inputs. -/
theorem before_unknown_kind_silent (o : Options B R S T) (ns : ServerCfg → Srv)
    (nc : Cl) (f : Flags) (d : Defaults B R S T Srv Cl) :
    (before o ns nc f d).error = none ∧
    (goLookup f.broker o.Brokers = none →
      (before o ns nc f d).defaults.broker = d.broker ∧
      (before o ns nc f d).trace.filter Event.isBrokerCall = []) ∧
    (goLookup f.registry o.Registries = none →
      (before o ns nc f d).defaults.registry = d.registry ∧
      (before o ns nc f d).trace.filter Event.isRegistryCall = []) ∧
    (goLookup f.selector o.Selectors = none →
      (before o ns nc f d).defaults.selector = d.selector ∧
      (before o ns nc f d).trace.filter Event.isSelectorCall = []) ∧
    (goLookup f.transport o.Transports = none →
      (before o ns nc f d).defaults.transport = d.transport ∧
      (before o ns nc f d).trace.filter Event.isTransportCall = []) := by
  refine ⟨rfl, fun h => ⟨?_, ?_⟩, fun h => ⟨?_, ?_⟩, fun h => ⟨?_, ?_⟩, fun h => ⟨?_, ?_⟩⟩
  · rw [before_defaults_broker, stepBroker_none o f d h]
  · simp [before_trace, List.filter_append, stepBroker_none o f d h,
      filter_brokerCall_stepRegistry, filter_brokerCall_stepSelector,
      filter_brokerCall_stepTransport, Event.isBrokerCall]
  · rw [before_defaults_registry, stepRegistry_none o f _ h, stepBroker_fst_registry]
  · simp [before_trace, List.filter_append, stepRegistry_none o f _ h,
      filter_registryCall_stepBroker, filter_registryCall_stepSelector,
      filter_registryCall_stepTransport, Event.isRegistryCall]
  · rw [before_defaults_selector, stepSelector_none o f _ h,
      stepRegistry_fst_selector, stepBroker_fst_selector]
  · simp [before_trace, List.filter_append, stepSelector_none o f _ h,
      filter_selectorCall_stepBroker, filter_selectorCall_stepRegistry,
      filter_selectorCall_stepTransport, Event.isSelectorCall]
  · rw [before_defaults_transport, stepTransport_none o f _ h,
      stepSelector_fst_transport, stepRegistry_fst_transport, stepBroker_fst_transport]
  · simp [before_trace, List.filter_append, stepTransport_none o f _ h,
      filter_transportCall_stepBroker, filter_transportCall_stepRegistry,
      filter_transportCall_stepSelector, Event.isTransportCall]

/-- Witness for C2: with all four kinds set to the unregistered
identifier `nope`, the run returns `nil` and every slot keeps its
prior value. -/
theorem before_unknown_kind_silent_witness :
    (before natOptions natNewServer natNewClient flagsNoMatch natDefaults).error = none ∧
    (before natOptions natNewServer natNewClient flagsNoMatch natDefaults).defaults.broker =
      natDefaults.broker ∧
    (before natOptions natNewServer natNewClient flagsNoMatch natDefaults).defaults.registry =
      natDefaults.registry ∧
    (before natOptions natNewServer natNewClient flagsNoMatch natDefaults).defaults.selector =
      natDefaults.selector ∧
    (before natOptions natNewServer natNewClient flagsNoMatch natDefaults).defaults.transport =
      natDefaults.transport :=
  ⟨(before_unknown_kind_silent natOptions natNewServer natNewClient flagsNoMatch
      natDefaults).1,
   ((before_unknown_kind_silent natOptions natNewServer natNewClient flagsNoMatch
      natDefaults).2.1 rfl).1,
   ((before_unknown_kind_silent natOptions natNewServer natNewClient flagsNoMatch
      natDefaults).2.2.1 rfl).1,
   ((before_unknown_kind_silent natOptions natNewServer natNewClient flagsNoMatch
      natDefaults).2.2.2.1 rfl).1,
   ((before_unknown_kind_silent natOptions natNewServer natNewClient flagsNoMatch
      natDefaults).2.2.2.2 rfl).1⟩

/-- C3: For every kind identifier that is a key of the corresponding
factory registry, the pre-run hook invokes exactly that factory
exactly once, passing it the address flag split on `,` (or, for the
selector, the default registry reference), and stores its return value
in the corresponding slot, overwriting any previous value. -/
theorem before_registered_kind_factory (o : Options B R S T) (ns : ServerCfg → Srv)
    (nc : Cl) (f : Flags) (d : Defaults B R S T Srv Cl) :
    (∀ b, goLookup f.broker o.Brokers = some b →
      (before o ns nc f d).defaults.broker = b (splitChar ',' f.broker_address) ∧
      (before o ns nc f d).trace.filter Event.isBrokerCall =
        [Event.brokerCall (splitChar ',' f.broker_address)]) ∧
    (∀ r, goLookup f.registry o.Registries = some r →
      (before o ns nc f d).defaults.registry = r (splitChar ',' f.registry_address) ∧
      (before o ns nc f d).trace.filter Event.isRegistryCall =
        [Event.registryCall (splitChar ',' f.registry_address)]) ∧
    (∀ s, goLookup f.selector o.Selectors = some s →
      (before o ns nc f d).defaults.selector =
        s ((stepRegistry o f (stepBroker o f d).1).1.registry) ∧
      (before o ns nc f d).trace.filter Event.isSelectorCall =
        [Event.selectorCall ((stepRegistry o f (stepBroker o f d).1).1.registry)]) ∧
    (∀ t, goLookup f.transport o.Transports = some t →
      (before o ns nc f d).defaults.transport = t (splitChar ',' f.transport_address) ∧
      (before o ns nc f d).trace.filter Event.isTransportCall =
        [Event.transportCall (splitChar ',' f.transport_address)]) := by
  refine ⟨fun b h => ⟨?_, ?_⟩, fun r h => ⟨?_, ?_⟩, fun s h => ⟨?_, ?_⟩, fun t h => ⟨?_, ?_⟩⟩
  · rw [before_defaults_broker, stepBroker_some o f d b h]
  · simp [before_trace, List.filter_append, stepBroker_some o f d b h,
      filter_brokerCall_stepRegistry, filter_brokerCall_stepSelector,
      filter_brokerCall_stepTransport, Event.isBrokerCall]
  · rw [before_defaults_registry, stepRegistry_some o f _ r h]
  · simp [before_trace, List.filter_append, stepRegistry_some o f _ r h,
      filter_registryCall_stepBroker, filter_registryCall_stepSelector,
      filter_registryCall_stepTransport, Event.isRegistryCall]
  · rw [before_defaults_selector, stepSelector_some o f _ s h]
  · simp [before_trace, List.filter_append, stepSelector_some o f _ s h,
      filter_selectorCall_stepBroker, filter_selectorCall_stepRegistry,
      filter_selectorCall_stepTransport, Event.isSelectorCall]
  · rw [before_defaults_transport, stepTransport_some o f _ t h]
  · simp [before_trace, List.filter_append, stepTransport_some o f _ t h,
      filter_transportCall_stepBroker, filter_transportCall_stepRegistry,
      filter_transportCall_stepSelector, Event.isTransportCall]

/-- Witness for C3: with the built-in kinds selected, the broker slot
holds the broker factory's value on the split address list, the trace
holds exactly one broker call, and the selector slot holds the
selector factory's value on the just-published registry. -/
theorem before_registered_kind_factory_witness :
    (before natOptions natNewServer natNewClient flagsAllMatch natDefaults).defaults.broker =
      (fun a : List Str => a.length) (splitChar ',' flagsAllMatch.broker_address) ∧
    (before natOptions natNewServer natNewClient flagsAllMatch natDefaults).trace.filter
        Event.isBrokerCall =
      [Event.brokerCall (splitChar ',' flagsAllMatch.broker_address)] ∧
    (before natOptions natNewServer natNewClient flagsAllMatch natDefaults).defaults.selector =
      (fun r : Nat => 100 + r)
        ((stepRegistry natOptions flagsAllMatch
          (stepBroker natOptions flagsAllMatch natDefaults).1).1.registry) :=
  ⟨((before_registered_kind_factory natOptions natNewServer natNewClient flagsAllMatch
      natDefaults).1 _ rfl).1,
   ((before_registered_kind_factory natOptions natNewServer natNewClient flagsAllMatch
      natDefaults).1 _ rfl).2,
   ((before_registered_kind_factory natOptions natNewServer natNewClient flagsAllMatch
      natDefaults).2.2.1 _ rfl).1⟩

/-- C10: When the requested registry kind is not registered (registry
resolution is a no-op) but the requested selector kind is registered,
the selector factory is still invoked and receives the value the
default-registry slot held before the bootstrap step. -/
theorem selector_receives_stale_registry (o : Options B R S T) (ns : ServerCfg → Srv)
    (nc : Cl) (f : Flags) (d : Defaults B R S T Srv Cl)
    (hr : goLookup f.registry o.Registries = none) :
    ∀ s, goLookup f.selector o.Selectors = some s →
      (before o ns nc f d).defaults.selector = s d.registry ∧
      Event.selectorCall d.registry ∈ (before o ns nc f d).trace := by
  intro s hsel
  have hreg : (stepRegistry o f (stepBroker o f d).1).1.registry = d.registry := by
    rw [stepRegistry_none o f _ hr]
    exact stepBroker_fst_registry o f d
  constructor
  · rw [before_defaults_selector, stepSelector_some o f _ s hsel]
    simp [hreg]
  · rw [before_trace]
    refine List.mem_append.mpr (Or.inl (List.mem_append.mpr (Or.inl
      (List.mem_append.mpr (Or.inr ?_)))))
    rw [stepSelector_some o f _ s hsel]
    simp [hreg]

/-- Witness for C10: with `--registry=nope --selector=random`, the
selector factory runs on the untouched initial registry slot. -/
theorem selector_receives_stale_registry_witness :
    (before natOptions natNewServer natNewClient flagsSelOnly natDefaults).defaults.selector =
      (fun r : Nat => 100 + r) natDefaults.registry ∧
    Event.selectorCall natDefaults.registry ∈
      (before natOptions natNewServer natNewClient flagsSelOnly natDefaults).trace :=
  selector_receives_stale_registry natOptions natNewServer natNewClient flagsSelOnly
    natDefaults rfl _ rfl

/-- C7: Command construction starts from a base option set whose four
factory registries each hold exactly the one built-in entry, applies
the supplied option functions in argument order, assigns the fixed
fallback description when `Description` is empty after all options,
and cannot fail (it is a total function into `CmdT`). -/
theorem newCmd_construction (hb : List Str → B) (cr : List Str → R) (rs : R → S)
    (ht : List Str → T) (os : List (OptionFn B R S T)) (fn : OptionFn B R S T) :
    (baseOptions hb cr rs ht).Brokers = [("http".data, hb)] ∧
    (baseOptions hb cr rs ht).Registries = [("consul".data, cr)] ∧
    (baseOptions hb cr rs ht).Selectors = [("random".data, rs)] ∧
    (baseOptions hb cr rs ht).Transports = [("http".data, ht)] ∧
    applyOptions hb cr rs ht [] = baseOptions hb cr rs ht ∧
    applyOptions hb cr rs ht (os ++ [fn]) = fn (applyOptions hb cr rs ht os) ∧
    (newCmd hb cr rs ht os).opts =
      (if (applyOptions hb cr rs ht os).Description = [] then
        { applyOptions hb cr rs ht os with Description := "a go-micro service".data }
      else applyOptions hb cr rs ht os) ∧
    (newCmd hb cr rs ht os).appName = (newCmd hb cr rs ht os).opts.Name ∧
    (newCmd hb cr rs ht os).appVersion = (newCmd hb cr rs ht os).opts.Version ∧
    (newCmd hb cr rs ht os).appUsage = (newCmd hb cr rs ht os).opts.Description := by
  refine ⟨rfl, rfl, rfl, rfl, rfl, ?_, rfl, rfl, rfl, rfl⟩
  unfold applyOptions
  rw [List.foldl_append]
  rfl

/-- C8: The declared flag defaults are `http` for broker, `consul` for
registry, `selector` for selector and `http` for transport; when the
registry flag is omitted, its default `consul` matches a key of the
built-in registry table, so registry resolution still runs the factory
and publishes a default registry. -/
theorem default_flag_values (hb : List Str → B) (cr : List Str → R) (rs : R → S)
    (ht : List Str → T) (ns : ServerCfg → Srv) (nc : Cl) (d : Defaults B R S T Srv Cl) :
    defaultFlagValue "broker".data = "http".data ∧
    defaultFlagValue "registry".data = "consul".data ∧
    defaultFlagValue "selector".data = "selector".data ∧
    defaultFlagValue "transport".data = "http".data ∧
    defaultFlagValue "server_address".data = ":0".data ∧
    goLookup defaultFlags.registry (DefaultRegistries cr) = some cr ∧
    (before (baseOptions hb cr rs ht) ns nc defaultFlags d).defaults.registry =
      cr (splitChar ',' defaultFlags.registry_address) ∧
    (before (baseOptions hb cr rs ht) ns nc defaultFlags d).trace.filter
        Event.isRegistryCall =
      [Event.registryCall (splitChar ',' defaultFlags.registry_address)] :=
  ⟨by decide, by decide, by decide, by decide, by decide, rfl, rfl, rfl⟩

/-- C9: With the selector flag left at its default `selector`, the
built-in selector registry (whose only key is `random`) has no
matching entry, so the bootstrap publishes no default selector even
though every other flag is at its default. -/
theorem default_selector_unmatched (hb : List Str → B) (cr : List Str → R) (rs : R → S)
    (ht : List Str → T) (ns : ServerCfg → Srv) (nc : Cl) (d : Defaults B R S T Srv Cl) :
    defaultFlagValue "selector".data = "selector".data ∧
    DefaultSelectors rs = [("random".data, rs)] ∧
    goLookup defaultFlags.selector (DefaultSelectors rs) = none ∧
    (before (baseOptions hb cr rs ht) ns nc defaultFlags d).defaults.selector =
      d.selector ∧
    (before (baseOptions hb cr rs ht) ns nc defaultFlags d).trace.filter
      Event.isSelectorCall = [] :=
  ⟨by decide, rfl, rfl, rfl, rfl⟩

end GoMicroCmd
